import Mathlib

/-! Shallow embedding of the proxy_tower response-check core
(src/models/pattern.py): the Checker rule engine, Pattern with its bounded
time-bucket counters, PatternManager, and CheckPatternTrie. Python dicts
and OrderedDicts are modelled as insertion-ordered association lists,
fallible calls return Except, and the asynchronous counter critical
section is modelled as an atomic state transformation (the per-Pattern
lock serializes invocations, see Pattern.counter). -/

/-! ## Python string primitives -/

/-- Python substring membership, needle in haystack, on character lists. -/
def charsContain (needle : List Char) : List Char → Bool
  | [] => needle.isEmpty
  | c :: rest => needle.isPrefixOf (c :: rest) || charsContain needle rest

/-- Python membership test for strings: needle in haystack. -/
def pyIn (needle haystack : String) : Bool :=
  charsContain needle.data haystack.data

/-- Python s.startswith(p). -/
def strStartsWith (s p : String) : Bool :=
  p.data.isPrefixOf s.data

/-- The whitespace characters stripped by Python str.strip(). -/
def pyIsSpace (c : Char) : Bool :=
  c = ' ' || c = '\t' || c = '\n' || c = '\r' || c = '\x0b' || c = '\x0c'

/-- Python str.strip(): drop leading and trailing whitespace. -/
def pyStrip (s : String) : String :=
  String.mk (((s.data.dropWhile pyIsSpace).reverse.dropWhile pyIsSpace).reverse)

/-- Python string interpolation of an optional integer:
str.format renders None as the text None and an int in decimal. -/
def pyFormatOptInt : Option Int → String
  | none => "None"
  | some c => toString c

/-! ## Insertion-ordered association lists (Python dict / OrderedDict) -/

/-- Python dict lookup d[k], as an option. -/
def assocLookup {α : Type} (k : String) : List (String × α) → Option α
  | [] => none
  | kv :: rest => if kv.1 = k then some kv.2 else assocLookup k rest

/-- Python dict assignment d[k] = v: update in place when the key exists
(keeping its position), append otherwise (insertion order). -/
def assocSet {α : Type} (k : String) (v : α) (l : List (String × α)) :
    List (String × α) :=
  if l.any (fun kv => kv.1 = k) then
    l.map (fun kv => if kv.1 = k then (k, v) else kv)
  else l ++ [(k, v)]

/-- Python del d[k]: remove the entry with key k. -/
def assocErase {α : Type} (k : String) (l : List (String × α)) :
    List (String × α) :=
  l.filter (fun kv => kv.1 != k)

/-! ## Checker (src/models/pattern.py lines 14-45) -/

/-- Checker state: the configured global blacklist of substrings. -/
structure Checker where
  global_blacklist : List String

/-- The external lxml-backed Checker._xpath_checker (lines 23-33): parsing
the body and evaluating the selector happens in an external library, so it
is modelled as an arbitrary evaluator returning an optional diagnostic
(none = assertion passed). Theorems about Checker.check hold for every
such evaluator. -/
def XPathEval : Type := String → String → String → Option String

/-- Checker._status_code_checker (lines 19-21):
status_code is not None and (status_code == 404 or status_code < 400). -/
def Checker.status_code_checker (status_code : Option Int) : Bool :=
  match status_code with
  | none => false
  | some c => c == 404 || decide (c < 400)

/-- Checker.check (lines 35-45). A Python return of None (all checks
passed) is .ok none, a returned diagnostic string is .ok (some d), and an
uncaught exception is .error. The TypeError raised by evaluating
value not in text with value = None is modelled as .error. -/
def Checker.check (ck : Checker) (xc : XPathEval) (status_code : Option Int)
    (text : String) (rule value : Option String) : Except String (Option String) :=
  if Checker.status_code_checker status_code = false then
    .ok (some ("status_code check failed, get " ++ pyFormatOptInt status_code))
  else
    match ck.global_blacklist.find? (fun word => pyIn word text) with
    | some word => .ok (some ("global blacklist check failed, get " ++ word))
    | none =>
      if rule = some "whitelist" then
        match value with
        | none => .error "TypeError: in requires string as left operand, not NoneType"
        | some v =>
          if pyIn v text = false then
            .ok (some ("whitelist check failed, " ++ v ++ " not found"))
          else .ok none
      else
        match rule with
        | some r =>
          match value with
          | some v =>
            if r ≠ "" ∧ v ≠ "" ∧ pyStrip r ≠ "" ∧ pyStrip v ≠ "" then
              .ok (xc text r v)
            else .ok none
          | none => .ok none
        | none => .ok none

/-! ## Pattern (src/models/pattern.py lines 48-109) -/

/-- A Pattern binds a pattern string to a rule, an expected value, the
shared Checker and two insertion-ordered counters (success and failure),
each mapping a time-bucket label to an occurrence count. The saver
collaborator and the asyncio lock object are not data; the lock is
modelled by the counter transition being atomic. -/
structure Pattern where
  pattern_str : String
  checker : Checker
  rule : Option String
  value : Option String
  success_counter : List (String × Nat)
  fail_counter : List (String × Nat)

/-- Pattern.__init__ (lines 50-58): both counters start empty. -/
def Pattern.new (pattern_str : String) (rule value : Option String)
    (checker : Checker) : Pattern :=
  { pattern_str := pattern_str, checker := checker, rule := rule,
    value := value, success_counter := [], fail_counter := [] }

/-- The body of the critical section of Pattern.counter (lines 86-94) on
one counter map: increment the bucket of the label (inserting it at the
end when new), then pop entries from the front while more than 10 remain. -/
def Pattern.counterUpdate (now : String) (c : List (String × Nat)) :
    List (String × Nat) :=
  let c1 :=
    if c.any (fun kv => kv.1 = now) then
      c.map (fun kv => if kv.1 = now then (kv.1, kv.2 + 1) else kv)
    else c ++ [(now, 1)]
  c1.drop (c1.length - 10)

/-- Line 86 of Pattern.counter: the counter selected by the valid flag. -/
def Pattern.activeCounter (valid : Bool) (p : Pattern) : List (String × Nat) :=
  if valid then p.success_counter else p.fail_counter

/-- Pattern.counter (lines 84-94). The asyncio per-Pattern lock makes the
increment-and-evict sequence atomic, so the whole call is one state
transformation. -/
def Pattern.counter (now : String) (valid : Bool) (p : Pattern) : Pattern :=
  if valid then
    { p with success_counter := Pattern.counterUpdate now p.success_counter }
  else
    { p with fail_counter := Pattern.counterUpdate now p.fail_counter }

/-- A sequence of Pattern.counter invocations with one valid flag, in the
order the per-Pattern lock serializes them. -/
def Pattern.counterRun (valid : Bool) (ls : List String) (p : Pattern) : Pattern :=
  ls.foldl (fun q now => Pattern.counter now valid q) p

/-- Pattern.success_rate (lines 63-73): iterate the success counter in
insertion order, pairing each label with (s / (f + s)) * 100 when the
label is also in the fail counter and 100 otherwise. Python float
division is modelled over ℚ. -/
def Pattern.success_rate (p : Pattern) : List String × List ℚ :=
  p.success_counter.foldl
    (fun acc tc =>
      match assocLookup tc.1 p.fail_counter with
      | some f =>
        (acc.1 ++ [tc.1], acc.2 ++ [((tc.2 : ℚ) / ((f : ℚ) + (tc.2 : ℚ))) * 100])
      | none => (acc.1 ++ [tc.1], acc.2 ++ [(100 : ℚ)]))
    ([], [])

/-- The response object surface used by Pattern.check: an optional integer
status and the awaited body text. -/
structure Response where
  status : Option Int
  text : String

/-- Pattern.check (lines 75-82): delegate to the Checker with this
Pattern's rule and value; None becomes the empty list, a diagnostic a
one-element list, and an exception propagates. -/
def Pattern.check (p : Pattern) (xc : XPathEval) (response : Response) :
    Except String (List String) :=
  match Checker.check p.checker xc response.status response.text p.rule p.value with
  | .error e => .error e
  | .ok none => .ok []
  | .ok (some r) => .ok [r]

/-- The serialized pattern record (Pattern.to_dict, lines 101-106): a JSON
object with exactly the fields pattern, rule and value. -/
structure PatternRecord where
  pattern : String
  rule : Option String
  value : Option String

/-- Pattern.to_dict (lines 101-106). -/
def Pattern.to_dict (p : Pattern) : PatternRecord :=
  { pattern := p.pattern_str, rule := p.rule, value := p.value }

/-! JSON text emission for Pattern.dumps. The external json library
escapes and renders the record; only the shape of the emitted text
matters to the claims, so the escaping covers the JSON mandatory cases. -/

/-- JSON string escaping for one character (backslash, quote, the common
control characters). -/
def jsonEscapeChar (c : Char) : List Char :=
  if c = '"' then ['\\', '"']
  else if c = '\\' then ['\\', '\\']
  else if c = '\n' then ['\\', 'n']
  else if c = '\t' then ['\\', 't']
  else if c = '\r' then ['\\', 'r']
  else [c]

/-- A JSON string literal. -/
def jsonStr (s : String) : String :=
  "\"" ++ String.mk (s.data.map jsonEscapeChar).flatten ++ "\""

/-- A JSON string or null, for the optional rule and value fields. -/
def jsonOptStr : Option String → String
  | none => "null"
  | some s => jsonStr s

/-- Pattern.dumps (lines 108-109): json.dumps of to_dict, with the json
module's default separators. -/
def Pattern.dumps (p : Pattern) : String :=
  "\x7b\"pattern\": " ++ jsonStr p.pattern_str ++ ", \"rule\": " ++
    jsonOptStr p.rule ++ ", \"value\": " ++ jsonOptStr p.value ++ "\x7d"

/-! ## CheckPatternTrie (src/models/pattern.py lines 193-213) -/

/-- One re.sub(r"https?://", "", url, 1) replacement on character lists:
delete the first occurrence of http:// or https:// (the regex is greedy,
and the two alternatives cannot match at the same position). -/
def subHttpOnce : List Char → List Char
  | [] => []
  | c :: rest =>
    if "https://".data.isPrefixOf (c :: rest) then rest.drop 7
    else if "http://".data.isPrefixOf (c :: rest) then rest.drop 6
    else c :: subHttpOnce rest

/-- CheckPatternTrie._remove_http_prefix (lines 209-213): when the url
starts with http, delete the first https?:// occurrence. -/
def CheckPatternTrie.remove_http_protocol (url : String) : String :=
  if strStartsWith url "http" then String.mk (subHttpOnce url.data) else url

/-- The trie content: normalized pattern string to serialized rule text.
pygtrie.CharTrie is an external dependency; only the keys with stored
values matter, so the content is an insertion-ordered association list. -/
abbrev TrieEntries : Type := List (String × String)

/-- CheckPatternTrie.__setitem__ (lines 198-199): store under the
normalized key. -/
def CheckPatternTrie.setItem (key value : String) (t : TrieEntries) : TrieEntries :=
  assocSet (CheckPatternTrie.remove_http_protocol key) value t

/-- One fold step of longestMatch: keep the stored entry whose key is a
prefix of the url and is longest so far. -/
def lpStep (url : String) (best : Option (String × String)) (kv : String × String) :
    Option (String × String) :=
  if strStartsWith url kv.1 then
    match best with
    | none => some kv
    | some b => if b.1.length < kv.1.length then some kv else best
  else best

/-- Model of pygtrie CharTrie.longest_prefix (an external dependency):
the stored entry whose key is the longest prefix of the url, none when no
stored key is a prefix (the step with key None in the source). -/
def CheckPatternTrie.longestMatch (t : TrieEntries) (url : String) :
    Option (String × String) :=
  t.foldl (lpStep url) none

/-- json.dumps of the sentinel rule, line 206 of closest_pattern. -/
def nullRuleJson : String := "\x7b\"rule\": null, \"value\": null\x7d"

/-- CheckPatternTrie.closest_pattern (lines 201-207): normalize the url,
take the longest stored prefix, and fall back to the public_proxies
sentinel when the step key is None. -/
def CheckPatternTrie.closest_pattern (t : TrieEntries) (url : String) :
    String × String :=
  match CheckPatternTrie.longestMatch t (CheckPatternTrie.remove_http_protocol url) with
  | some kv => kv
  | none => ("public_proxies", nullRuleJson)

/-! ## PatternManager (src/models/pattern.py lines 112-190) -/

/-- PatternManager state: the shared checker, the in-memory index
_patterns, the trie t, and the remote-store hash response_check_pattern
(the redis connection itself is external; the hash content is the state). -/
structure PatternManager where
  checker : Checker
  patterns : List (String × Pattern)
  t : TrieEntries
  store : List (String × String)

/-- PatternManager.add (lines 175-179): build a fresh Pattern, register it
in the index under str(pattern), write its serialized form into the trie
(which normalizes the key) and into the store field str(pattern). -/
def PatternManager.add (pattern : String) (rule value : Option String)
    (m : PatternManager) : PatternManager :=
  let p := Pattern.new pattern rule value m.checker
  { m with
    patterns := assocSet pattern p m.patterns,
    t := CheckPatternTrie.setItem pattern p.dumps m.t,
    store := assocSet pattern p.dumps m.store }

/-- PatternManager.delete (lines 181-184): del on the trie with the raw
key (CharTrie.__delitem__ is not overridden, so no normalization), then
del on the index, then hdel on the store (hdel of an absent field is a
no-op). A del of an absent key raises KeyError, modelled as none; the
trie mutation already performed before a failing index del is dropped
with the raised exception in this model. -/
def PatternManager.delete (pattern : String) (m : PatternManager) :
    Option PatternManager :=
  if (assocLookup pattern m.t).isSome then
    if (assocLookup pattern m.patterns).isSome then
      some { m with
        patterns := assocErase pattern m.patterns,
        t := assocErase pattern m.t,
        store := assocErase pattern m.store }
    else none
  else none

/-- The reconstruction performed by PatternManager.patterns (lines
134-144) on one stored record: json.loads of the stored field followed by
Pattern(d.pattern, d.rule, d.value, self.checker, self.saver). The
json.loads of a Pattern.dumps text recovers the record (a guarantee of
the external json library, modelled at the record level). -/
def PatternManager.loadPattern (checker : Checker) (d : PatternRecord) : Pattern :=
  Pattern.new d.pattern d.rule d.value checker

/-! ## Helper lemmas on association lists -/

theorem assocLookup_append_left {α : Type} (k : String) (l1 l2 : List (String × α))
    (h : (assocLookup k l1).isSome = true) :
    assocLookup k (l1 ++ l2) = assocLookup k l1 := by
  induction l1 with
  | nil => simp [assocLookup] at h
  | cons kv rest ih =>
    by_cases hk : kv.1 = k
    · simp [assocLookup, hk]
    · simp only [assocLookup, hk, if_false] at h
      simp only [List.cons_append, assocLookup, hk, if_false]
      exact ih h

theorem assocLookup_map_set {α : Type} (k : String) (v : α) :
    ∀ l : List (String × α), l.any (fun kv => kv.1 = k) = true →
      assocLookup k (l.map (fun kv => if kv.1 = k then (k, v) else kv)) = some v := by
  intro l
  induction l with
  | nil => intro h; simp at h
  | cons kv rest ih =>
    intro h
    by_cases hk : kv.1 = k
    · simp [assocLookup, hk]
    · simp only [List.any_cons, hk, decide_False, Bool.false_or] at h
      simp only [List.map_cons, if_neg hk, assocLookup, hk, if_false]
      exact ih h

theorem assocLookup_append_new {α : Type} (k : String) (v : α) :
    ∀ l : List (String × α), l.any (fun kv => kv.1 = k) = false →
      assocLookup k (l ++ [(k, v)]) = some v := by
  intro l
  induction l with
  | nil => intro _; simp [assocLookup]
  | cons kv rest ih =>
    intro h
    simp only [List.any_cons, Bool.or_eq_false_iff, decide_eq_false_iff_not] at h
    simp only [List.cons_append, assocLookup, h.1, if_false]
    exact ih (by
      rcases h with ⟨h1, h2⟩
      exact h2)

theorem assocLookup_set_self {α : Type} (k : String) (v : α) (l : List (String × α)) :
    assocLookup k (assocSet k v l) = some v := by
  unfold assocSet
  by_cases h : l.any (fun kv => kv.1 = k) = true
  · rw [if_pos h]
    exact assocLookup_map_set k v l h
  · rw [if_neg h]
    exact assocLookup_append_new k v l (by
      cases hb : l.any (fun kv => kv.1 = k)
      · rfl
      · exact absurd hb h)

theorem assocLookup_erase_self {α : Type} (k : String) (l : List (String × α)) :
    assocLookup k (assocErase k l) = none := by
  induction l with
  | nil => rfl
  | cons kv rest ih =>
    by_cases hk : kv.1 = k
    · simp only [assocErase, List.filter_cons, hk, bne_self_eq_false]
      exact ih
    · have hb : (kv.1 != k) = true := by simp [hk]
      simp only [assocErase, List.filter_cons, hb, if_true, assocLookup, hk, if_false]
      exact ih

theorem lookup_isSome_of_mem_fst {α : Type} (k : String) (l : List (String × α))
    (h : k ∈ l.map Prod.fst) : (assocLookup k l).isSome = true := by
  induction l with
  | nil => simp at h
  | cons kv rest ih =>
    by_cases hk : kv.1 = k
    · simp [assocLookup, hk]
    · simp only [List.map_cons, List.mem_cons] at h
      rcases h with h | h
      · exact absurd h.symm hk
      · simp only [assocLookup, hk, if_false]
        exact ih h

theorem assoc_any_congr {α β : Type} (k : String) :
    ∀ (l1 : List (String × α)) (l2 : List (String × β)),
      l1.map Prod.fst = l2.map Prod.fst →
      l1.any (fun kv => kv.1 = k) = l2.any (fun kv => kv.1 = k) := by
  intro l1
  induction l1 with
  | nil =>
    intro l2 h
    cases l2 with
    | nil => rfl
    | cons b bs => simp at h
  | cons a as ih =>
    intro l2 h
    cases l2 with
    | nil => simp at h
    | cons b bs =>
      simp only [List.map_cons, List.cons.injEq] at h
      simp only [List.any_cons, h.1, ih bs h.2]

theorem assocSet_map_fst {α : Type} (k : String) (v : α) (l : List (String × α)) :
    (assocSet k v l).map Prod.fst =
      if l.any (fun kv => kv.1 = k) then l.map Prod.fst else l.map Prod.fst ++ [k] := by
  unfold assocSet
  by_cases h : l.any (fun kv => kv.1 = k) = true
  · rw [if_pos h, if_pos h, List.map_map]
    apply List.map_congr_left
    intro kv _
    by_cases hk : kv.1 = k
    · simp [hk]
    · simp [hk]
  · rw [if_neg h, if_neg h, List.map_append]
    rfl

/-! ## Checker theorems -/

theorem check_status_rejected (ck : Checker) (xc : XPathEval) (sc : Option Int)
    (text : String) (rule value : Option String)
    (h : Checker.status_code_checker sc = false) :
    Checker.check ck xc sc text rule value =
      .ok (some ("status_code check failed, get " ++ pyFormatOptInt sc)) := by
  simp [Checker.check, h]

/-- C4: a status code c is accepted exactly when c == 404 or c < 400, an
absent status code is always rejected, any rejected status yields the
diagnostic of the form status_code check failed, get code, regardless of
the rule, and through Pattern.check a 500 status yields exactly the
one-element list with the text status_code check failed, get 500. -/
theorem status_code_check_spec :
    (∀ c : Int, Checker.status_code_checker (some c) = true ↔ (c = 404 ∨ c < 400)) ∧
    Checker.status_code_checker none = false ∧
    (∀ (ck : Checker) (xc : XPathEval) (sc : Option Int) (text : String)
        (rule value : Option String),
        Checker.status_code_checker sc = false →
        Checker.check ck xc sc text rule value =
          .ok (some ("status_code check failed, get " ++ pyFormatOptInt sc))) ∧
    (∀ (xc : XPathEval) (p : Pattern) (body : String),
        Pattern.check p xc { status := some 500, text := body } =
          .ok ["status_code check failed, get 500"]) := by
  refine ⟨?_, rfl, check_status_rejected, ?_⟩
  · intro c
    simp [Checker.status_code_checker]
  · intro xc p body
    rfl

/-- C5: when the status code is accepted and some blacklisted word occurs
in the body, Checker.check returns the blacklist diagnostic for a
blacklisted word occurring in the body, whatever the rule and value are:
the blacklist runs before the whitelist and structured checks. -/
theorem blacklist_hit_fails (ck : Checker) (xc : XPathEval) (sc : Option Int)
    (text : String) (rule value : Option String)
    (hsc : Checker.status_code_checker sc = true)
    (hbl : ∃ w ∈ ck.global_blacklist, pyIn w text = true) :
    ∃ w ∈ ck.global_blacklist, pyIn w text = true ∧
      Checker.check ck xc sc text rule value =
        .ok (some ("global blacklist check failed, get " ++ w)) := by
  have h1 : (ck.global_blacklist.find? (fun w => pyIn w text)).isSome := by
    rw [List.find?_isSome]
    obtain ⟨w, hw, hpw⟩ := hbl
    exact ⟨w, hw, by simp [hpw]⟩
  obtain ⟨w0, hw0⟩ := Option.isSome_iff_exists.mp h1
  have hp0 : pyIn w0 text = true := by
    have := List.find?_some hw0
    simpa using this
  refine ⟨w0, List.mem_of_find?_eq_some hw0, hp0, ?_⟩
  simp [Checker.check, hsc, hw0]

/-- Witness for C5 at a concrete input: blacklist [bad], body containing
bad, status 200, a whitelist rule that would otherwise pass. -/
theorem blacklist_hit_fails_witness :
    Checker.status_code_checker (some 200) = true ∧
    (∃ w ∈ (Checker.mk ["bad"]).global_blacklist, pyIn w "a bad body" = true) ∧
    ∃ w ∈ (Checker.mk ["bad"]).global_blacklist, pyIn w "a bad body" = true ∧
      Checker.check (Checker.mk ["bad"]) (fun _ _ _ => none) (some 200) "a bad body"
        (some "whitelist") (some "body") =
        .ok (some ("global blacklist check failed, get " ++ w)) :=
  ⟨by decide, ⟨"bad", by decide, by decide⟩,
    blacklist_hit_fails (Checker.mk ["bad"]) (fun _ _ _ => none) (some 200)
      "a bad body" (some "whitelist") (some "body") (by decide)
      ⟨"bad", by decide, by decide⟩⟩

/-- C10 counterexample: with rule whitelist and a null value, a call whose
status code is rejected does NOT raise: it returns the status diagnostic,
so not every check call on such a Pattern fails with an exception. -/
theorem whitelist_null_value_counterexample :
    Checker.check (Checker.mk []) (fun _ _ _ => none) (some 500) "body"
      (some "whitelist") none =
      .ok (some "status_code check failed, get 500") := rfl

/-- C10 amended: with rule whitelist and a null value, every call that
passes the status-code and blacklist stages reaches the membership test,
which raises an error instead of returning a diagnostic or a pass. -/
theorem whitelist_null_value_raises (ck : Checker) (xc : XPathEval)
    (sc : Option Int) (text : String)
    (hsc : Checker.status_code_checker sc = true)
    (hbl : ∀ w ∈ ck.global_blacklist, pyIn w text = false) :
    ∃ e, Checker.check ck xc sc text (some "whitelist") none = .error e := by
  have hf : ck.global_blacklist.find? (fun w => pyIn w text) = none := by
    rw [List.find?_eq_none]
    intro x hx
    simp [hbl x hx]
  refine ⟨"TypeError: in requires string as left operand, not NoneType", ?_⟩
  simp [Checker.check, hsc, hf]

/-- Witness for the amended C10 at a concrete input: empty blacklist,
status 200. -/
theorem whitelist_null_value_raises_witness :
    Checker.status_code_checker (some 200) = true ∧
    (∀ w ∈ (Checker.mk []).global_blacklist, pyIn w "body" = false) ∧
    ∃ e, Checker.check (Checker.mk []) (fun _ _ _ => none) (some 200) "body"
      (some "whitelist") none = .error e :=
  ⟨by decide, by simp,
    whitelist_null_value_raises (Checker.mk []) (fun _ _ _ => none) (some 200)
      "body" (by decide) (by simp)⟩

/-- C7: serializing a Pattern to its record (to_dict, then dumps and
json.loads, which the json library round-trips) and rebuilding a Pattern
the way PatternManager.patterns does yields the same pattern string, rule
and value. -/
theorem pattern_record_roundtrip (p : Pattern) (ck : Checker) :
    (PatternManager.loadPattern ck p.to_dict).pattern_str = p.pattern_str ∧
    (PatternManager.loadPattern ck p.to_dict).rule = p.rule ∧
    (PatternManager.loadPattern ck p.to_dict).value = p.value :=
  ⟨rfl, rfl, rfl⟩

/-! ## Counter theorems -/

theorem counterRun_active (valid : Bool) (ls : List String) :
    ∀ p : Pattern,
      Pattern.activeCounter valid (Pattern.counterRun valid ls p) =
        ls.foldl (fun c now => Pattern.counterUpdate now c)
          (Pattern.activeCounter valid p) := by
  induction ls with
  | nil => intro p; rfl
  | cons x rest ih =>
    intro p
    have hstep : Pattern.activeCounter valid (Pattern.counter x valid p) =
        Pattern.counterUpdate x (Pattern.activeCounter valid p) := by
      cases valid <;> simp [Pattern.counter, Pattern.activeCounter]
    calc Pattern.activeCounter valid (Pattern.counterRun valid (x :: rest) p)
        = Pattern.activeCounter valid (Pattern.counterRun valid rest (Pattern.counter x valid p)) := rfl
      _ = rest.foldl (fun c now => Pattern.counterUpdate now c)
            (Pattern.activeCounter valid (Pattern.counter x valid p)) := ih _
      _ = _ := by rw [hstep, List.foldl_cons]

theorem foldl_counterUpdate_distinct :
    ∀ ls : List String, ls.Nodup →
      ls.foldl (fun c now => Pattern.counterUpdate now c) [] =
        (ls.map (fun l => (l, (1 : Nat)))).drop (ls.length - 10) := by
  intro ls
  induction ls using List.reverseRecOn with
  | nil => intro _; rfl
  | append_singleton ls a ih =>
    intro hnd
    have hnd0 : ls.Nodup := hnd.of_append_left
    have ha : a ∉ ls := fun hmem =>
      (List.disjoint_of_nodup_append hnd) hmem (by simp)
    have hfold := ih hnd0
    rw [List.foldl_append, hfold, List.foldl_cons, List.foldl_nil]
    have hany : ((ls.map (fun l => (l, (1 : Nat)))).drop (ls.length - 10)).any
        (fun kv => kv.1 = a) = false := by
      rw [List.any_eq_false]
      intro kv hkv
      have hmem := List.mem_of_mem_drop hkv
      obtain ⟨l0, hl0, rfl⟩ := List.mem_map.mp hmem
      simp only [decide_eq_true_eq]
      intro h
      exact ha (h ▸ hl0)
    rw [Pattern.counterUpdate, if_neg (by simp [hany])]
    have hlenmap : (ls.map (fun l => (l, (1 : Nat)))).length = ls.length := by
      simp
    by_cases hn : ls.length < 10
    · have h0 : ls.length - 10 = 0 := by omega
      have h1 : ls.length + 1 - 10 = 0 := by omega
      have hlen2 : ((ls.map (fun l => (l, (1 : Nat)))).drop (ls.length - 10) ++
          [(a, (1 : Nat))]).length = ls.length + 1 := by
        simp [h0]
      rw [hlen2]
      simp [h0, h1, List.map_append]
    · have h10 : 10 ≤ ls.length := by omega
      have hlens : ((ls.map (fun l => (l, (1 : Nat)))).drop (ls.length - 10)).length = 10 := by
        rw [List.length_drop, hlenmap]
        omega
      have hlen2 : ((ls.map (fun l => (l, (1 : Nat)))).drop (ls.length - 10) ++
          [(a, (1 : Nat))]).length = 11 := by
        simp [hlens]
      rw [hlen2]
      have hdrop1 : ((ls.map (fun l => (l, (1 : Nat)))).drop (ls.length - 10) ++
          [(a, (1 : Nat))]).drop (11 - 10) =
          ((ls.map (fun l => (l, (1 : Nat)))).drop (ls.length - 10)).drop 1 ++
            [(a, (1 : Nat))] := by
        apply List.drop_append_of_le_length
        rw [hlens]
        omega
      rw [hdrop1, List.drop_drop]
      have harith : ls.length - 10 + 1 = ls.length + 1 - 10 := by omega
      rw [harith, List.map_append,
        List.drop_append_of_le_length (by simp [hlenmap])]
      simp [List.length_append]

/-- C1: after Pattern.counter has run on one Pattern for 11 or more
distinct time labels (on the counter the valid flag selects), exactly 10
labels remain, they are the 10 most recently inserted ones in insertion
order, and every earlier-inserted label has been evicted (FIFO). -/
theorem counter_eviction_fifo (ps : String) (r v : Option String) (ck : Checker)
    (valid : Bool) (ls : List String) (hnd : ls.Nodup) (hlen : 11 ≤ ls.length) :
    (Pattern.activeCounter valid
        (Pattern.counterRun valid ls (Pattern.new ps r v ck))).length = 10 ∧
    (Pattern.activeCounter valid
        (Pattern.counterRun valid ls (Pattern.new ps r v ck))).map Prod.fst =
      ls.drop (ls.length - 10) ∧
    ∀ l ∈ ls.take (ls.length - 10),
      l ∉ (Pattern.activeCounter valid
        (Pattern.counterRun valid ls (Pattern.new ps r v ck))).map Prod.fst := by
  have hbase : Pattern.activeCounter valid (Pattern.new ps r v ck) = [] := by
    cases valid <;> rfl
  have hrun : Pattern.activeCounter valid
      (Pattern.counterRun valid ls (Pattern.new ps r v ck)) =
      (ls.map (fun l => (l, (1 : Nat)))).drop (ls.length - 10) := by
    rw [counterRun_active, hbase, foldl_counterUpdate_distinct ls hnd]
  have hkeys : (Pattern.activeCounter valid
      (Pattern.counterRun valid ls (Pattern.new ps r v ck))).map Prod.fst =
      ls.drop (ls.length - 10) := by
    rw [hrun, ← List.map_drop, List.map_map]
    exact List.map_id'' (fun x => rfl) _
  refine ⟨?_, hkeys, ?_⟩
  · rw [hrun, List.length_drop]
    simp only [List.length_map]
    omega
  · intro l hl
    rw [hkeys]
    exact fun hmem => List.disjoint_take_drop hnd (le_refl _) hl hmem

/-- Witness for C1 at a concrete input: 11 distinct labels inserted as
successes; the earliest label t00 is evicted and the latest 10 remain. -/
theorem counter_eviction_fifo_witness :
    (["t00", "t01", "t02", "t03", "t04", "t05", "t06", "t07", "t08", "t09",
      "t10"] : List String).Nodup ∧
    11 ≤ (["t00", "t01", "t02", "t03", "t04", "t05", "t06", "t07", "t08",
      "t09", "t10"] : List String).length ∧
    ((Pattern.activeCounter true
        (Pattern.counterRun true
          ["t00", "t01", "t02", "t03", "t04", "t05", "t06", "t07", "t08",
            "t09", "t10"]
          (Pattern.new "x" none none (Checker.mk [])))).length = 10 ∧
      (Pattern.activeCounter true
        (Pattern.counterRun true
          ["t00", "t01", "t02", "t03", "t04", "t05", "t06", "t07", "t08",
            "t09", "t10"]
          (Pattern.new "x" none none (Checker.mk [])))).map Prod.fst =
        (["t00", "t01", "t02", "t03", "t04", "t05", "t06", "t07", "t08",
          "t09", "t10"] : List String).drop
          ((["t00", "t01", "t02", "t03", "t04", "t05", "t06", "t07", "t08",
            "t09", "t10"] : List String).length - 10) ∧
      ∀ l ∈ (["t00", "t01", "t02", "t03", "t04", "t05", "t06", "t07", "t08",
          "t09", "t10"] : List String).take
          ((["t00", "t01", "t02", "t03", "t04", "t05", "t06", "t07", "t08",
            "t09", "t10"] : List String).length - 10),
        l ∉ (Pattern.activeCounter true
          (Pattern.counterRun true
            ["t00", "t01", "t02", "t03", "t04", "t05", "t06", "t07", "t08",
              "t09", "t10"]
            (Pattern.new "x" none none (Checker.mk [])))).map Prod.fst) :=
  ⟨by decide, by decide,
    counter_eviction_fifo "x" none none (Checker.mk []) true
      ["t00", "t01", "t02", "t03", "t04", "t05", "t06", "t07", "t08", "t09",
        "t10"] (by decide) (by decide)⟩

theorem counterUpdate_same (now : String) (k : Nat) :
    Pattern.counterUpdate now [(now, k)] = [(now, k + 1)] := by
  simp [Pattern.counterUpdate]

theorem foldl_counterUpdate_same (now : String) (k : Nat) :
    ∀ c : Nat, (List.replicate k now).foldl
        (fun m t => Pattern.counterUpdate t m) [(now, c)] = [(now, c + k)] := by
  induction k with
  | zero => intro c; rfl
  | succ k ih =>
    intro c
    rw [List.replicate_succ, List.foldl_cons, counterUpdate_same, ih (c + 1)]
    have : c + 1 + k = c + (k + 1) := by omega
    rw [this]

/-- C9: N invocations of Pattern.counter for the same time label on the
same Pattern, serialized by the per-Pattern lock into some order, leave a
final count of exactly N for that label (here on the success counter, for
any N at least 1). -/
theorem counter_serialized_count (ps : String) (r v : Option String)
    (ck : Checker) (now : String) (N : Nat) (h : 0 < N) :
    (Pattern.counterRun true (List.replicate N now)
        (Pattern.new ps r v ck)).success_counter = [(now, N)] := by
  obtain ⟨m, rfl⟩ : ∃ m, N = m + 1 := ⟨N - 1, by omega⟩
  have hrun : (Pattern.counterRun true (List.replicate (m + 1) now)
      (Pattern.new ps r v ck)).success_counter =
      (List.replicate (m + 1) now).foldl
        (fun c t => Pattern.counterUpdate t c) [] := by
    have := counterRun_active true (List.replicate (m + 1) now) (Pattern.new ps r v ck)
    simpa [Pattern.activeCounter] using this
  rw [hrun, List.replicate_succ, List.foldl_cons]
  have hfirst : Pattern.counterUpdate now ([] : List (String × Nat)) = [(now, 1)] := rfl
  rw [hfirst, foldl_counterUpdate_same now m 1]
  have : 1 + m = m + 1 := by omega
  rw [this]

/-- Witness for C9 at a concrete input: three increments of one label
give the count 3. -/
theorem counter_serialized_count_witness :
    0 < 3 ∧
    (Pattern.counterRun true (List.replicate 3 "t")
        (Pattern.new "x" none none (Checker.mk []))).success_counter = [("t", 3)] :=
  ⟨by decide,
    counter_serialized_count "x" none none (Checker.mk []) "t" 3 (by decide)⟩

/-! ## Trie theorems -/

theorem lpStep_keeps_or_takes (url : String) (acc : Option (String × String))
    (kv : String × String) :
    lpStep url acc kv = acc ∨
      (lpStep url acc kv = some kv ∧ strStartsWith url kv.1 = true) := by
  unfold lpStep
  by_cases hp : strStartsWith url kv.1 = true
  · rw [if_pos hp]
    cases acc with
    | none => exact Or.inr ⟨rfl, hp⟩
    | some b =>
      by_cases hl : b.1.length < kv.1.length
      · exact Or.inr ⟨by simp [hl], hp⟩
      · exact Or.inl (by simp [hl])
  · rw [if_neg hp]
    exact Or.inl rfl

theorem lpStep_mono (url : String) (acc : Option (String × String))
    (kv : String × String) (a : String × String) (h : acc = some a) :
    ∃ a2, lpStep url acc kv = some a2 ∧ a.1.length ≤ a2.1.length := by
  subst h
  unfold lpStep
  by_cases hp : strStartsWith url kv.1 = true
  · rw [if_pos hp]
    by_cases hl : a.1.length < kv.1.length
    · exact ⟨kv, by simp [hl], Nat.le_of_lt hl⟩
    · exact ⟨a, by simp [hl], Nat.le_refl _⟩
  · rw [if_neg hp]
    exact ⟨a, rfl, Nat.le_refl _⟩

theorem lpStep_covers (url : String) (acc : Option (String × String))
    (kv : String × String) (h : strStartsWith url kv.1 = true) :
    ∃ a2, lpStep url acc kv = some a2 ∧ kv.1.length ≤ a2.1.length := by
  unfold lpStep
  rw [if_pos h]
  cases acc with
  | none => exact ⟨kv, rfl, Nat.le_refl _⟩
  | some b =>
    by_cases hl : b.1.length < kv.1.length
    · exact ⟨kv, by simp [hl], Nat.le_refl _⟩
    · exact ⟨b, by simp [hl], Nat.le_of_not_lt hl⟩

theorem lpStep_none (url : String) (kv : String × String)
    (h : strStartsWith url kv.1 = false) : lpStep url none kv = none := by
  unfold lpStep
  rw [if_neg (by simp [h])]

theorem longestMatch_aux (url : String) :
    ∀ (t : List (String × String)) (acc : Option (String × String)),
      (∀ b, t.foldl (lpStep url) acc = some b →
        acc = some b ∨ (b ∈ t ∧ strStartsWith url b.1 = true)) ∧
      (∀ a, acc = some a →
        ∃ b, t.foldl (lpStep url) acc = some b ∧ a.1.length ≤ b.1.length) ∧
      (∀ kv, kv ∈ t → strStartsWith url kv.1 = true →
        ∃ b, t.foldl (lpStep url) acc = some b ∧ kv.1.length ≤ b.1.length) ∧
      ((acc = none ∧ ∀ kv ∈ t, strStartsWith url kv.1 = false) →
        t.foldl (lpStep url) acc = none) := by
  intro t
  induction t with
  | nil =>
    intro acc
    refine ⟨?_, ?_, ?_, ?_⟩
    · intro b hb
      exact Or.inl hb
    · intro a ha
      exact ⟨a, ha, Nat.le_refl _⟩
    · intro kv hkv
      exact absurd hkv (List.not_mem_nil kv)
    · intro h
      exact h.1
  | cons hd tl ih =>
    intro acc
    obtain ⟨ih1, ih2, ih3, ih4⟩ := ih (lpStep url acc hd)
    refine ⟨?_, ?_, ?_, ?_⟩
    · intro b hb
      rw [List.foldl_cons] at hb
      rcases ih1 b hb with hstep | hmem
      · rcases lpStep_keeps_or_takes url acc hd with he | ⟨he, hp⟩
        · exact Or.inl (he ▸ hstep)
        · refine Or.inr ⟨?_, ?_⟩
          · rw [he] at hstep
            have : hd = b := by
              injection hstep
            exact this ▸ List.mem_cons_self hd tl
          · rw [he] at hstep
            have : hd = b := by injection hstep
            exact this ▸ hp
      · exact Or.inr ⟨List.mem_cons_of_mem hd hmem.1, hmem.2⟩
    · intro a ha
      obtain ⟨a2, ha2, hle2⟩ := lpStep_mono url acc hd a ha
      obtain ⟨b, hb, hleb⟩ := ih2 a2 ha2
      rw [List.foldl_cons]
      exact ⟨b, hb, Nat.le_trans hle2 hleb⟩
    · intro kv hkv hp
      rw [List.foldl_cons]
      rcases List.mem_cons.mp hkv with rfl | hmem
      · obtain ⟨a2, ha2, hle2⟩ := lpStep_covers url acc kv hp
        obtain ⟨b, hb, hleb⟩ := ih2 a2 ha2
        exact ⟨b, hb, Nat.le_trans hle2 hleb⟩
      · exact ih3 kv hmem hp
    · intro ⟨hacc, hall⟩
      rw [List.foldl_cons]
      have hstep : lpStep url acc hd = none := by
        rw [hacc]
        exact lpStep_none url hd (hall hd (List.mem_cons_self hd tl))
      exact ih4 ⟨hstep, fun kv hkv => hall kv (List.mem_cons_of_mem hd hkv)⟩

/-- C2: closest_pattern normalizes the url by stripping the protocol
marker, returns the stored entry whose key is the longest prefix of the
normalized url, and returns the sentinel (public_proxies, the serialized
null rule) when no stored key is a prefix; in particular a pattern stored
for a.com resolves the query for the same host behind http://. -/
theorem closest_pattern_resolution (t : TrieEntries) (url : String) (v : String) :
    ((∃ kv : String × String, kv ∈ t ∧
        strStartsWith (CheckPatternTrie.remove_http_protocol url) kv.1 = true ∧
        CheckPatternTrie.closest_pattern t url = kv ∧
        ∀ kv2 ∈ t,
          strStartsWith (CheckPatternTrie.remove_http_protocol url) kv2.1 = true →
            kv2.1.length ≤ kv.1.length) ∨
      ((∀ kv ∈ t,
          strStartsWith (CheckPatternTrie.remove_http_protocol url) kv.1 = false) ∧
        CheckPatternTrie.closest_pattern t url =
          ("public_proxies", nullRuleJson))) ∧
    CheckPatternTrie.closest_pattern
        (CheckPatternTrie.setItem "a.com" v []) "http://a.com/x" = ("a.com", v) := by
  constructor
  · by_cases hall : ∀ kv ∈ t,
        strStartsWith (CheckPatternTrie.remove_http_protocol url) kv.1 = false
    · right
      refine ⟨hall, ?_⟩
      have hnone : CheckPatternTrie.longestMatch t
          (CheckPatternTrie.remove_http_protocol url) = none :=
        (longestMatch_aux (CheckPatternTrie.remove_http_protocol url) t none).2.2.2
          ⟨rfl, hall⟩
      simp [CheckPatternTrie.closest_pattern, hnone]
    · left
      push_neg at hall
      obtain ⟨kv0, hkv0, hne0⟩ := hall
      have hp0 : strStartsWith (CheckPatternTrie.remove_http_protocol url) kv0.1 = true := by
        cases hb : strStartsWith (CheckPatternTrie.remove_http_protocol url) kv0.1
        · exact absurd hb hne0
        · rfl
      obtain ⟨haux1, _, haux3, _⟩ :=
        longestMatch_aux (CheckPatternTrie.remove_http_protocol url) t none
      obtain ⟨b, hb, _⟩ := haux3 kv0 hkv0 hp0
      rcases haux1 b hb with habs | ⟨hmem, hpre⟩
      · exact absurd habs (by simp)
      refine ⟨b, hmem, hpre, ?_, ?_⟩
      · simp [CheckPatternTrie.closest_pattern, CheckPatternTrie.longestMatch, hb]
      · intro kv2 h2 hpre2
        obtain ⟨b2, hb2, hlen2⟩ := haux3 kv2 h2 hpre2
        rw [hb] at hb2
        have : b = b2 := by injection hb2
        exact this ▸ hlen2
  · rfl

/-! ## PatternManager theorems -/

/-- C3 counterexample: add with the pattern string http://a.com keys the
in-memory index (and the store) by the raw string while the trie holds the
normalized key a.com, so the index is not keyed by the normalized pattern
string and the index and trie do not agree on the set of keys. -/
theorem manager_add_keys_counterexample :
    ((PatternManager.add "http://a.com" none none
        { checker := Checker.mk [], patterns := [], t := [], store := [] }).patterns.map
        Prod.fst = ["http://a.com"]) ∧
    ((PatternManager.add "http://a.com" none none
        { checker := Checker.mk [], patterns := [], t := [], store := [] }).t.map
        Prod.fst = ["a.com"]) ∧
    (assocLookup "a.com"
        (PatternManager.add "http://a.com" none none
          { checker := Checker.mk [], patterns := [], t := [],
            store := [] }).patterns).isSome = false ∧
    ¬ ((PatternManager.add "http://a.com" none none
        { checker := Checker.mk [], patterns := [], t := [], store := [] }).patterns.map
        Prod.fst =
      (PatternManager.add "http://a.com" none none
        { checker := Checker.mk [], patterns := [], t := [], store := [] }).t.map
        Prod.fst) :=
  ⟨rfl, rfl, rfl, by decide⟩

/-- C3 amended: after add(p, rule, value) the in-memory index and the
remote store both hold the entry under the raw string str(p), and their
key sets stay in agreement, while the trie holds the entry under the
normalized string; all three agree on the key of p only when
normalization leaves str(p) unchanged. -/
theorem manager_add_keys (pattern : String) (rule value : Option String)
    (m : PatternManager)
    (hks : m.patterns.map Prod.fst = m.store.map Prod.fst) :
    ((PatternManager.add pattern rule value m).patterns.map Prod.fst =
      (PatternManager.add pattern rule value m).store.map Prod.fst) ∧
    (assocLookup pattern
        (PatternManager.add pattern rule value m).patterns).isSome = true ∧
    (assocLookup pattern
        (PatternManager.add pattern rule value m).store).isSome = true ∧
    (assocLookup (CheckPatternTrie.remove_http_protocol pattern)
        (PatternManager.add pattern rule value m).t).isSome = true ∧
    (CheckPatternTrie.remove_http_protocol pattern = pattern →
      (assocLookup pattern
        (PatternManager.add pattern rule value m).t).isSome = true) := by
  refine ⟨?_, ?_, ?_, ?_, ?_⟩
  · show (assocSet pattern (Pattern.new pattern rule value m.checker)
        m.patterns).map Prod.fst =
      (assocSet pattern (Pattern.new pattern rule value m.checker).dumps
        m.store).map Prod.fst
    rw [assocSet_map_fst, assocSet_map_fst, hks,
      assoc_any_congr pattern m.patterns m.store hks]
  · show (assocLookup pattern (assocSet pattern
        (Pattern.new pattern rule value m.checker) m.patterns)).isSome = true
    rw [assocLookup_set_self]
    rfl
  · show (assocLookup pattern (assocSet pattern
        (Pattern.new pattern rule value m.checker).dumps m.store)).isSome = true
    rw [assocLookup_set_self]
    rfl
  · show (assocLookup (CheckPatternTrie.remove_http_protocol pattern)
        (CheckPatternTrie.setItem pattern
          (Pattern.new pattern rule value m.checker).dumps m.t)).isSome = true
    unfold CheckPatternTrie.setItem
    rw [assocLookup_set_self]
    rfl
  · intro hn
    show (assocLookup pattern (CheckPatternTrie.setItem pattern
        (Pattern.new pattern rule value m.checker).dumps m.t)).isSome = true
    unfold CheckPatternTrie.setItem
    rw [hn, assocLookup_set_self]
    rfl

/-- Witness for the amended C3 at a concrete input: adding a.com to the
empty manager. -/
theorem manager_add_keys_witness :
    (([] : List (String × Pattern)).map Prod.fst =
      ([] : List (String × String)).map Prod.fst) ∧
    (((PatternManager.add "a.com" none none
        { checker := Checker.mk [], patterns := [], t := [], store := [] }).patterns.map
        Prod.fst =
      (PatternManager.add "a.com" none none
        { checker := Checker.mk [], patterns := [], t := [], store := [] }).store.map
        Prod.fst) ∧
    (assocLookup "a.com"
        (PatternManager.add "a.com" none none
          { checker := Checker.mk [], patterns := [], t := [],
            store := [] }).patterns).isSome = true ∧
    (assocLookup "a.com"
        (PatternManager.add "a.com" none none
          { checker := Checker.mk [], patterns := [], t := [],
            store := [] }).store).isSome = true ∧
    (assocLookup (CheckPatternTrie.remove_http_protocol "a.com")
        (PatternManager.add "a.com" none none
          { checker := Checker.mk [], patterns := [], t := [],
            store := [] }).t).isSome = true ∧
    (CheckPatternTrie.remove_http_protocol "a.com" = "a.com" →
      (assocLookup "a.com"
        (PatternManager.add "a.com" none none
          { checker := Checker.mk [], patterns := [], t := [],
            store := [] }).t).isSome = true)) :=
  ⟨rfl, manager_add_keys "a.com" none none
    { checker := Checker.mk [], patterns := [], t := [], store := [] } rfl⟩

/-- C8 counterexample: delete with the same string previously passed to
add does not always succeed: add normalizes the trie key but delete uses
the raw key, so add of http://a.com followed by delete of http://a.com
raises a missing-key error (modelled as none). -/
theorem delete_after_add_counterexample :
    (PatternManager.delete "http://a.com"
      (PatternManager.add "http://a.com" none none
        { checker := Checker.mk [], patterns := [], t := [],
          store := [] })).isSome = false := rfl

/-- C8 amended: delete succeeds exactly when the raw key is present in
both the trie and the in-memory index (a missing key in either raises,
with no silent swallowing), and it then removes the key from the trie,
the index and the store; add followed by delete of the same pattern
string succeeds whenever normalization leaves the string unchanged. -/
theorem delete_spec (pattern : String) (rule value : Option String)
    (m : PatternManager)
    (hn : CheckPatternTrie.remove_http_protocol pattern = pattern) :
    (∀ m2 : PatternManager,
      (PatternManager.delete pattern m2).isSome =
        ((assocLookup pattern m2.t).isSome &&
          (assocLookup pattern m2.patterns).isSome)) ∧
    (∃ m3, PatternManager.delete pattern
        (PatternManager.add pattern rule value m) = some m3 ∧
      (assocLookup pattern m3.t).isSome = false ∧
      (assocLookup pattern m3.patterns).isSome = false ∧
      (assocLookup pattern m3.store).isSome = false) := by
  constructor
  · intro m2
    by_cases h1 : (assocLookup pattern m2.t).isSome = true
    · by_cases h2 : (assocLookup pattern m2.patterns).isSome = true
      · simp [PatternManager.delete, h1, h2]
      · simp [PatternManager.delete, h1, h2]
    · simp [PatternManager.delete, h1]
  · have ht : (assocLookup pattern (PatternManager.add pattern rule value m).t).isSome = true := by
      show (assocLookup pattern (CheckPatternTrie.setItem pattern
          (Pattern.new pattern rule value m.checker).dumps m.t)).isSome = true
      unfold CheckPatternTrie.setItem
      rw [hn, assocLookup_set_self]
      rfl
    have hp : (assocLookup pattern
        (PatternManager.add pattern rule value m).patterns).isSome = true := by
      show (assocLookup pattern (assocSet pattern
          (Pattern.new pattern rule value m.checker) m.patterns)).isSome = true
      rw [assocLookup_set_self]
      rfl
    refine ⟨PatternManager.mk (PatternManager.add pattern rule value m).checker
      (assocErase pattern (PatternManager.add pattern rule value m).patterns)
      (assocErase pattern (PatternManager.add pattern rule value m).t)
      (assocErase pattern (PatternManager.add pattern rule value m).store),
      ?_, ?_, ?_, ?_⟩
    · simp [PatternManager.delete, ht, hp]
    · rw [assocLookup_erase_self]
      rfl
    · rw [assocLookup_erase_self]
      rfl
    · rw [assocLookup_erase_self]
      rfl

/-- Witness for the amended C8 at a concrete input: add then delete of
a.com on the empty manager succeeds and clears all three stores. -/
theorem delete_spec_witness :
    CheckPatternTrie.remove_http_protocol "a.com" = "a.com" ∧
    ((∀ m2 : PatternManager,
      (PatternManager.delete "a.com" m2).isSome =
        ((assocLookup "a.com" m2.t).isSome &&
          (assocLookup "a.com" m2.patterns).isSome)) ∧
    (∃ m3, PatternManager.delete "a.com"
        (PatternManager.add "a.com" none none
          { checker := Checker.mk [], patterns := [], t := [],
            store := [] }) = some m3 ∧
      (assocLookup "a.com" m3.t).isSome = false ∧
      (assocLookup "a.com" m3.patterns).isSome = false ∧
      (assocLookup "a.com" m3.store).isSome = false)) :=
  ⟨by decide, delete_spec "a.com" none none
    { checker := Checker.mk [], patterns := [], t := [], store := [] } (by decide)⟩

/-! ## success_rate theorems -/

theorem success_rate_foldl (failc : List (String × Nat)) :
    ∀ (l : List (String × Nat)) (acc : List String × List ℚ),
      l.foldl
        (fun acc tc =>
          match assocLookup tc.1 failc with
          | some f =>
            (acc.1 ++ [tc.1], acc.2 ++ [((tc.2 : ℚ) / ((f : ℚ) + (tc.2 : ℚ))) * 100])
          | none => (acc.1 ++ [tc.1], acc.2 ++ [(100 : ℚ)])) acc =
      (acc.1 ++ l.map Prod.fst,
       acc.2 ++ l.map (fun tc =>
         match assocLookup tc.1 failc with
         | some f => ((tc.2 : ℚ) / ((f : ℚ) + (tc.2 : ℚ))) * 100
         | none => (100 : ℚ))) := by
  intro l
  induction l with
  | nil => intro acc; simp
  | cons tc rest ih =>
    intro acc
    rw [List.foldl_cons]
    cases hf : assocLookup tc.1 failc with
    | none =>
      simp only [hf]
      rw [ih]
      simp [hf, List.append_assoc]
    | some f =>
      simp only [hf]
      rw [ih]
      simp [hf, List.append_assoc]

/-- C6: success_rate pairs, in insertion order, every label of the
success counter with 100 * s / (s + f) when the label is also in the fail
counter and with 100 otherwise, and no label that is only in the fail
counter appears in the returned label series. -/
theorem success_rate_spec (p : Pattern) :
    p.success_rate.1 = p.success_counter.map Prod.fst ∧
    p.success_rate.2 = p.success_counter.map (fun tc =>
      match assocLookup tc.1 p.fail_counter with
      | some f => 100 * (tc.2 : ℚ) / ((tc.2 : ℚ) + (f : ℚ))
      | none => (100 : ℚ)) ∧
    ∀ t, t ∈ p.success_rate.1 → (assocLookup t p.success_counter).isSome = true := by
  have hfold := success_rate_foldl p.fail_counter p.success_counter ([], [])
  have h1 : p.success_rate.1 = p.success_counter.map Prod.fst := by
    unfold Pattern.success_rate
    rw [hfold]
    simp
  refine ⟨h1, ?_, ?_⟩
  · unfold Pattern.success_rate
    rw [hfold]
    simp only [List.nil_append]
    apply List.map_congr_left
    intro tc _
    cases hf : assocLookup tc.1 p.fail_counter with
    | none => simp
    | some f =>
      simp only []
      rw [add_comm (f : ℚ) (tc.2 : ℚ), div_mul_eq_mul_div, mul_comm]
  · intro t ht
    rw [h1] at ht
    exact lookup_isSome_of_mem_fst t p.success_counter ht
